import Mathlib

/-!
Verification development for the `proj` project-directory manager.

The definitions below are a shallow embedding of the TypeScript sources
(`proj.ts`, `mcp-server.ts`) and, where the scaffolding subsystem is absent
from the sources (only its tests remain), of the specification's description
of that subsystem.  Filesystem effects are made explicit: operations return
the document they write (if any) together with a control outcome, and
environment-dependent data (directory metadata, directory listings, current
time) is passed in as parameters.
-/

namespace Proj

/-- The four lifecycle states of a tracked project (`ProjectState` in
`proj.ts`). In the persisted JSON the field is an arbitrary optional string;
this enumeration is used where the code works with a validated state. -/
inductive PState
  | active
  | paused
  | completed
  | archived
deriving DecidableEq

/-- Render a validated state back to its JSON string. -/
def PState.toStr : PState → String
  | .active => "active"
  | .paused => "paused"
  | .completed => "completed"
  | .archived => "archived"

/-- One tracked project record (`Project` interface in `proj.ts`).
Optional JSON fields are `Option`s; `none` models an absent key
(JavaScript `undefined`). -/
structure Project where
  name : String
  path : String
  added : String
  lastModified : String
  size : Option Nat
  docs : Option String
  state : Option String
  completedAt : Option String
  category : Option String
  description : Option String
  visibility : Option String
  repoUrl : Option String
  nextSteps : Option String
deriving DecidableEq

/-- Build a record with only the four required fields set, all optional
fields absent, as `addProject`/`scanDirectory` construct records. -/
def mkProject (name path added lastModified : String) : Project :=
  ⟨name, path, added, lastModified, none, none, none, none, none,
   none, none, none, none⟩

/-- The persisted top-level document (`ProjectConfig` in `proj.ts`). -/
structure ProjectConfig where
  version : String
  projects : List Project
deriving DecidableEq

/-- Errors the CLI reports (spec §7 taxonomy, matched to the concrete
`console.error` sites in `proj.ts`). -/
inductive ProjError
  | configCorrupt
  | configWriteError
  | projectNotFound
  | templateNotFound
  | templateConfigMissing
  | templateConfigInvalid
  | destinationExists
  | directoryCreateError
  | usageError
  | projectExists
  | dirMissing
deriving DecidableEq

/-- Control outcome of an operation. `err e` means the error value is
signaled to the caller (thrown / returned); `fatal e code` means the
operation printed error `e` to the error channel and terminated the whole
process itself with the given exit code (`process.exit`). -/
inductive Outcome
  | ok
  | err (e : ProjError)
  | fatal (e : ProjError) (code : Nat)
deriving DecidableEq

/-- Result of a command-level operation: its control outcome plus the
document it handed to `saveConfig` (if it saved at all). -/
structure OpResult where
  outcome : Outcome
  write : Option ProjectConfig
deriving DecidableEq

/-- State of the persisted config file as `loadConfig` sees it:
absent, or present with the result of `JSON.parse` + the `as ProjectConfig`
cast (`none` when parsing or the subsequent field access throws). -/
inductive ConfigFile
  | absent
  | present (parsed : Option ProjectConfig)
deriving DecidableEq

/-- `project.state || "active"`: the state string of a record with the
JavaScript falsy values (absent field, empty string) replaced by
`"active"`. -/
def stateOrActive (p : Project) : String :=
  match p.state with
  | none => "active"
  | some s => if s = "" then "active" else s

/-- The migration applied to each record on load
(`{...project, state: project.state || "active"}`, proj.ts lines 122-125). -/
def migrateProject (p : Project) : Project :=
  { p with state := some (stateOrActive p) }

/-- Result of `loadConfig`: control outcome, the in-memory document it
returns (when it returns), and the document it wrote to disk (only in the
create-default case). -/
structure LoadResult where
  outcome : Outcome
  result : Option ProjectConfig
  write : Option ProjectConfig
deriving DecidableEq

/-- The default document created when no config file exists
(proj.ts lines 109-114). -/
def defaultConfig : ProjectConfig := ⟨"1.0.0", []⟩

/-- `loadConfig` (proj.ts lines 104-135): absent file creates and writes the
default document; unparseable content prints an error and exits the process
with code 1; a parsed document gets the per-record state migration applied
to the in-memory result only. -/
def loadConfig : ConfigFile → LoadResult
  | .absent => ⟨.ok, some defaultConfig, some defaultConfig⟩
  | .present none => ⟨.fatal .configCorrupt 1, none, none⟩
  | .present (some cfg) =>
      ⟨.ok, some ⟨cfg.version, cfg.projects.map migrateProject⟩, none⟩

/-- `saveConfig` (proj.ts lines 140-149): serializes and overwrites the
whole document; on a write failure it prints an error and exits with
code 1. Writability of the config location is the boolean parameter. -/
def saveConfig (writable : Bool) (config : ProjectConfig) : OpResult :=
  if writable then ⟨.ok, some config⟩ else ⟨.fatal .configWriteError 1, none⟩

/-- A well-formed persisted record: non-empty `name` and `path` (spec §3
invariant) and a present, non-empty `state` string, so that the record
already has the post-migration shape. -/
def WfRecord (p : Project) : Prop :=
  p.name ≠ "" ∧ p.path ≠ "" ∧ p.state ≠ none ∧ p.state ≠ some ""

instance (p : Project) : Decidable (WfRecord p) := by
  unfold WfRecord; infer_instance

/-- A well-formed persisted store: every record is well-formed. -/
def WellFormedStore (cfg : ProjectConfig) : Prop :=
  ∀ p ∈ cfg.projects, WfRecord p

instance (cfg : ProjectConfig) : Decidable (WellFormedStore cfg) := by
  unfold WellFormedStore; infer_instance

/-- Migration does not change a record that already has a non-empty state. -/
theorem migrateProject_eq_self (p : Project) (h1 : p.state ≠ none)
    (h2 : p.state ≠ some "") : migrateProject p = p := by
  obtain ⟨n, pa, ad, lm, sz, dc, st, ca, cat, de, vi, ru, ns⟩ := p
  cases st with
  | none => simp at h1
  | some s =>
      have hs : s ≠ "" := by
        intro h
        exact h2 (by simp [h])
      simp [migrateProject, stateOrActive, hs]

/-- Migration is the identity on a list of well-formed records. -/
theorem map_migrate_eq_self (l : List Project) (h : ∀ p ∈ l, WfRecord p) :
    l.map migrateProject = l := by
  induction l with
  | nil => rfl
  | cons p rest ih =>
      have hp := h p (List.mem_cons_self p rest)
      simp only [List.map_cons]
      rw [migrateProject_eq_self p hp.2.2.1 hp.2.2.2,
          ih (fun q hq => h q (List.mem_cons_of_mem p hq))]

/-- Migration preserves every field except `state`. -/
theorem migrateProject_name (p : Project) :
    (migrateProject p).name = p.name := rfl

/-! ## Project lifecycle (`setProjectState`, proj.ts lines 154-191) -/

/-- The record-level transition (proj.ts lines 173-179): set the state;
a transition into `completed` always stamps a fresh `completedAt`;
otherwise the flag decides whether `completedAt` is deleted or kept. -/
def applyState (p : Project) (newState : PState) (clearCompletedDate : Bool)
    (now : String) : Project :=
  { p with
      state := some newState.toStr
      completedAt :=
        if newState = .completed then some now
        else if clearCompletedDate then none
        else p.completedAt }

/-- Replace the first record with the given name (the semantics of
`config.projects.find(...)` followed by in-place mutation); `none` when no
record matches. -/
def updateFirst (f : Project → Project) (name : String) :
    List Project → Option (List Project)
  | [] => none
  | p :: rest =>
      if p.name = name then some (f p :: rest)
      else (updateFirst f name rest).map (p :: ·)

/-- `!name || name.trim() === ""`: the name is empty or all whitespace.
(Stated via a character scan rather than `String.trim` so that concrete
instances evaluate inside the kernel.) -/
def isBlank (s : String) : Bool :=
  s.data.all Char.isWhitespace

/-- `setProjectState` (proj.ts lines 154-191): blank name is a usage error;
the config is loaded (a corrupt file already killed the process inside
`loadConfig`); a missing record prints an error and exits with code 1
before any save; otherwise the first matching record is transitioned and
the whole document is saved. The config location is assumed writable
(`saveConfig`'s failure branch is orthogonal to the properties below). -/
def setProjectState (file : ConfigFile) (name : String) (newState : PState)
    (clearCompletedDate : Bool) (now : String) : OpResult :=
  if isBlank name then ⟨.fatal .usageError 1, none⟩
  else
    match (loadConfig file).result with
    | none => ⟨.fatal .configCorrupt 1, none⟩
    | some config =>
        match updateFirst (fun p => applyState p newState clearCompletedDate now)
            name config.projects with
        | none => ⟨.fatal .projectNotFound 1, none⟩
        | some projects => ⟨.ok, some { config with projects := projects }⟩

/-- `proj complete <name>` (proj.ts line 1223). -/
def completeCmd (file : ConfigFile) (name now : String) : OpResult :=
  setProjectState file name .completed false now

/-- `proj pause <name>` (proj.ts line 1232; `clearCompletedDate` defaults
to `true`). -/
def pauseCmd (file : ConfigFile) (name now : String) : OpResult :=
  setProjectState file name .paused true now

/-- `proj archive <name>` (proj.ts line 1241). -/
def archiveCmd (file : ConfigFile) (name now : String) : OpResult :=
  setProjectState file name .archived false now

/-- `proj reactivate <name>` (proj.ts line 1250; `clearCompletedDate`
defaults to `true`). -/
def reactivateCmd (file : ConfigFile) (name now : String) : OpResult :=
  setProjectState file name .active true now

/-- No record named `name` means `updateFirst` finds nothing. -/
theorem updateFirst_eq_none (f : Project → Project) (name : String)
    (l : List Project) (h : ∀ p ∈ l, p.name ≠ name) :
    updateFirst f name l = none := by
  induction l with
  | nil => rfl
  | cons p rest ih =>
      have hp := h p (List.mem_cons_self p rest)
      simp only [updateFirst, if_neg hp,
        ih (fun q hq => h q (List.mem_cons_of_mem p hq)), Option.map_none']

/-- When no record carries the requested name and the name is not blank,
`setProjectState` fails before saving, whatever the target state and
clear flag. -/
theorem setProjectState_absent (cfg : ProjectConfig) (name : String)
    (s : PState) (c : Bool) (now : String) (hname : isBlank name = false)
    (habs : ∀ p ∈ cfg.projects, p.name ≠ name) :
    setProjectState (.present (some cfg)) name s c now =
      ⟨.fatal .projectNotFound 1, none⟩ := by
  have habs2 : ∀ p ∈ cfg.projects.map migrateProject, p.name ≠ name := by
    intro q hq
    obtain ⟨p, hp, rfl⟩ := List.mem_map.mp hq
    simpa [migrateProject_name] using habs p hp
  simp [setProjectState, hname, loadConfig,
    updateFirst_eq_none _ _ _ habs2]

/-- Claim C1: for every project record, transitioning to `completed` always
stamps a fresh `completedAt` (regardless of the clear flag and of any
previous value); the pause operation (`paused`, clear = true) removes
`completedAt`; the archive operation (`archived`, clear = false) leaves an
existing `completedAt` untouched; the reactivate operation (`active`,
clear = true) removes `completedAt`. The final conjuncts pin the flag each
named CLI command passes (proj.ts lines 1217-1251). -/
theorem lifecycle_completedAt_policy (r : Project) (now : String) :
    (applyState r .completed false now).completedAt = some now ∧
    (applyState r .completed true now).completedAt = some now ∧
    (applyState r .paused true now).completedAt = none ∧
    (applyState r .archived false now).completedAt = r.completedAt ∧
    (applyState r .active true now).completedAt = none ∧
    (applyState r .completed false now).state = some "completed" ∧
    (applyState r .paused true now).state = some "paused" ∧
    (applyState r .archived false now).state = some "archived" ∧
    (applyState r .active true now).state = some "active" ∧
    (∀ file n t, completeCmd file n t = setProjectState file n .completed false t) ∧
    (∀ file n t, pauseCmd file n t = setProjectState file n .paused true t) ∧
    (∀ file n t, archiveCmd file n t = setProjectState file n .archived false t) ∧
    (∀ file n t, reactivateCmd file n t = setProjectState file n .active true t) := by
  refine ⟨rfl, rfl, rfl, ?_, rfl, rfl, rfl, rfl, rfl,
    fun _ _ _ => rfl, fun _ _ _ => rfl, fun _ _ _ => rfl, fun _ _ _ => rfl⟩
  simp [applyState]

/-- Claim C2: loading an existing parseable store yields exactly the
per-record migrated sequence; a record lacking the `state` field comes back
with `state = "active"`; every returned record has a defined state; and the
load writes nothing back to disk. -/
theorem loadConfig_migration (cfg : ProjectConfig) (p : Project)
    (_hp : p ∈ cfg.projects) (hs : p.state = none) :
    (loadConfig (.present (some cfg))).result =
      some ⟨cfg.version, cfg.projects.map migrateProject⟩ ∧
    migrateProject p = { p with state := some "active" } ∧
    (∀ q ∈ cfg.projects.map migrateProject, q.state ≠ none) ∧
    (loadConfig (.present (some cfg))).write = none := by
  refine ⟨rfl, ?_, ?_, rfl⟩
  · simp [migrateProject, stateOrActive, hs]
  · intro q hq
    obtain ⟨p2, _, rfl⟩ := List.mem_map.mp hq
    simp [migrateProject]

/-- Concrete store exercising the migration: one record without `state`. -/
def storeNoState : ProjectConfig :=
  ⟨"1.0.0", [mkProject "alpha" "/home/u/alpha" "2024-01-01" "2024-01-02"]⟩

/-- Witness for claim C2 at a one-record store whose record lacks `state`. -/
theorem loadConfig_migration_witness :
    (mkProject "alpha" "/home/u/alpha" "2024-01-01" "2024-01-02")
        ∈ storeNoState.projects ∧
    ((loadConfig (.present (some storeNoState))).result =
        some ⟨storeNoState.version, storeNoState.projects.map migrateProject⟩ ∧
      migrateProject (mkProject "alpha" "/home/u/alpha" "2024-01-01" "2024-01-02") =
        { mkProject "alpha" "/home/u/alpha" "2024-01-01" "2024-01-02" with
            state := some "active" } ∧
      (∀ q ∈ storeNoState.projects.map migrateProject, q.state ≠ none) ∧
      (loadConfig (.present (some storeNoState))).write = none) :=
  ⟨by decide, loadConfig_migration storeNoState _ (by decide) rfl⟩

/-- Claim C3: for a well-formed persisted store (every record with
non-empty `name`, `path` and a present non-empty `state`), loading returns
the document unchanged — record count, insertion order and all fields
preserved, no sorting — and saving writes back exactly that document. -/
theorem save_load_roundtrip (cfg : ProjectConfig) (h : WellFormedStore cfg) :
    (loadConfig (.present (some cfg))).result = some cfg ∧
    (saveConfig true cfg).write = some cfg := by
  obtain ⟨v, ps⟩ := cfg
  refine ⟨?_, rfl⟩
  have hm := map_migrate_eq_self ps (fun p hp => h p hp)
  simp [loadConfig, hm]

/-- A record that has been completed: state `completed`, dated `T3`. -/
def projDone : Project :=
  { mkProject "b" "/p/b" "T1" "T2" with
      state := some "completed"
      completedAt := some "T3" }

/-- Concrete well-formed store with all states represented. -/
def storeWf : ProjectConfig :=
  ⟨"1.0.0",
    [{ mkProject "a" "/p/a" "T1" "T2" with state := some "active" },
     projDone,
     { mkProject "c" "/p/c" "T1" "T2" with state := some "archived" }]⟩

/-- Witness for claim C3 at a three-record well-formed store. -/
theorem save_load_roundtrip_witness :
    WellFormedStore storeWf ∧
    ((loadConfig (.present (some storeWf))).result = some storeWf ∧
      (saveConfig true storeWf).write = some storeWf) :=
  ⟨by decide, save_load_roundtrip storeWf (by decide)⟩

/-- Counterexample to claim C4: on unparseable contents `loadConfig` prints
the corruption message and terminates the process itself with exit code 1
(`process.exit(1)`, proj.ts line 133); the failure is not signaled to the
caller as a `ConfigCorrupt` error value, so the presentation layer never
gets to decide exit behavior. -/
theorem loadConfig_corrupt_counterexample :
    (loadConfig (.present none)).outcome = .fatal .configCorrupt 1 ∧
    (loadConfig (.present none)).outcome ≠ .err .configCorrupt ∧
    (loadConfig (.present none)).result = none ∧
    (loadConfig (.present none)).write = none := by decide

/-- Claim C4 (amended): on an existing document whose contents cannot be
parsed, the load operation fails fatally with the `ConfigCorrupt`
diagnosis, with no partial recovery and no auto-backup (nothing is written
back), but the core itself reports the error and terminates the process
with exit code 1 rather than signaling the failure to its caller. -/
theorem loadConfig_corrupt_amended :
    loadConfig (.present none) =
      ⟨.fatal .configCorrupt 1, none, none⟩ := rfl

/-- Claim C7: for every store and every non-blank name with no matching
record, each of the four lifecycle commands fails with `ProjectNotFound`
and aborts without saving — the persisted store is untouched. -/
theorem lifecycle_notFound (cfg : ProjectConfig) (name now : String)
    (hname : isBlank name = false)
    (habs : ∀ p ∈ cfg.projects, p.name ≠ name) :
    completeCmd (.present (some cfg)) name now =
      ⟨.fatal .projectNotFound 1, none⟩ ∧
    pauseCmd (.present (some cfg)) name now =
      ⟨.fatal .projectNotFound 1, none⟩ ∧
    archiveCmd (.present (some cfg)) name now =
      ⟨.fatal .projectNotFound 1, none⟩ ∧
    reactivateCmd (.present (some cfg)) name now =
      ⟨.fatal .projectNotFound 1, none⟩ :=
  ⟨setProjectState_absent cfg name _ _ now hname habs,
   setProjectState_absent cfg name _ _ now hname habs,
   setProjectState_absent cfg name _ _ now hname habs,
   setProjectState_absent cfg name _ _ now hname habs⟩

/-- Witness for claim C7: the name `ghost` is absent from `storeWf`. -/
theorem lifecycle_notFound_witness :
    (isBlank "ghost" = false ∧ ∀ p ∈ storeWf.projects, p.name ≠ "ghost") ∧
    (completeCmd (.present (some storeWf)) "ghost" "NOW" =
        ⟨.fatal .projectNotFound 1, none⟩ ∧
      pauseCmd (.present (some storeWf)) "ghost" "NOW" =
        ⟨.fatal .projectNotFound 1, none⟩ ∧
      archiveCmd (.present (some storeWf)) "ghost" "NOW" =
        ⟨.fatal .projectNotFound 1, none⟩ ∧
      reactivateCmd (.present (some storeWf)) "ghost" "NOW" =
        ⟨.fatal .projectNotFound 1, none⟩) :=
  ⟨⟨by decide, by decide⟩,
    lifecycle_notFound storeWf "ghost" "NOW" (by decide) (by decide)⟩

/-! ## Listing (`listProjects`, proj.ts lines 248-399) -/

/-- Result of `getDirectoryMetadata` (proj.ts lines 196-212). -/
structure DirMetadata where
  lastModified : String
  size : Nat
deriving DecidableEq

/-- Flags of the `list` command (proj.ts lines 248-257). -/
structure ListOptions where
  json : Bool
  verbose : Bool
  all : Bool
  completed : Bool
  paused : Bool
  archived : Bool
deriving DecidableEq

/-- `proj list` with no flags. -/
def defaultListOptions : ListOptions := ⟨false, false, false, false, false, false⟩

/-- Opportunistic metadata refresh (proj.ts lines 273-279): when
`existsSync(project.path)` holds (`env` returns metadata), overwrite
`lastModified` and `size`; otherwise keep the record as is. -/
def refreshProject (env : String → Option DirMetadata) (p : Project) :
    Project :=
  match env p.path with
  | some md => { p with lastModified := md.lastModified, size := some md.size }
  | none => p

/-- The state label the mutually-exclusive filter flags select
(proj.ts lines 284-303). -/
def selectedState (opts : ListOptions) : String :=
  if opts.completed then "completed"
  else if opts.paused then "paused"
  else if opts.archived then "archived"
  else "active"

/-- Metadata refresh followed by the state filter
(proj.ts lines 272-304); `--all` skips the filter. -/
def listSelection (env : String → Option DirMetadata) (opts : ListOptions)
    (projects : List Project) : List Project :=
  if opts.all then projects.map (refreshProject env)
  else (projects.map (refreshProject env)).filter
    (fun p => stateOrActive p = selectedState opts)

/-- `listProjects` (proj.ts lines 248-399): loads, returns early on an
empty store and on an empty filtered selection, and otherwise — after
printing — saves the document back with the refreshed project sequence
(`saveConfig({...config, projects: updatedProjects})`, line 398). -/
def listProjects (env : String → Option DirMetadata) (file : ConfigFile)
    (opts : ListOptions) : OpResult :=
  match (loadConfig file).result with
  | none => ⟨.fatal .configCorrupt 1, none⟩
  | some config =>
      if config.projects = [] then ⟨.ok, none⟩
      else if listSelection env opts config.projects = [] then ⟨.ok, none⟩
      else ⟨.ok, some { config with
        projects := config.projects.map (refreshProject env) }⟩

/-- A store holding a single paused project. -/
def storePausedOnly : ProjectConfig :=
  ⟨"1.0.0", [{ mkProject "p1" "/p/p1" "T1" "T2" with state := some "paused" }]⟩

/-- Counterexample to claim C9: `proj list` with default options on a
non-empty store whose only project is paused prints "No active projects
found." and returns before the save (proj.ts lines 306-319), so the
persisted document is not rewritten. -/
theorem listProjects_counterexample :
    storePausedOnly.projects ≠ [] ∧
    listProjects (fun _ => none) (.present (some storePausedOnly))
      defaultListOptions = ⟨.ok, none⟩ := by decide

/-- Claim C9 (amended): whenever the store is non-empty and at least one
record passes the selected state filter, listing rewrites the persisted
document, saving the opportunistically refreshed `lastModified` and `size`
for every record whose path exists and persisting the migrated `state`
field of every record; with an empty store or an empty filtered selection
it returns before saving. -/
theorem listProjects_write (env : String → Option DirMetadata)
    (cfg : ProjectConfig) (opts : ListOptions)
    (h1 : cfg.projects ≠ [])
    (h2 : listSelection env opts (cfg.projects.map migrateProject) ≠ []) :
    listProjects env (.present (some cfg)) opts =
      ⟨.ok, some ⟨cfg.version,
        (cfg.projects.map migrateProject).map (refreshProject env)⟩⟩ ∧
    (∀ q ∈ (cfg.projects.map migrateProject).map (refreshProject env),
      q.state ≠ none) ∧
    (∀ p : Project, ∀ md : DirMetadata, env p.path = some md →
      (refreshProject env p).lastModified = md.lastModified ∧
      (refreshProject env p).size = some md.size) := by
  refine ⟨?_, ?_, ?_⟩
  · have hne : cfg.projects.map migrateProject ≠ [] := by
      simpa using h1
    simp [listProjects, loadConfig, hne, h2]
  · intro q hq
    obtain ⟨p2, hp2, rfl⟩ := List.mem_map.mp hq
    obtain ⟨p3, _, rfl⟩ := List.mem_map.mp hp2
    cases h : env p3.path <;> simp [refreshProject, migrateProject, h]
  · intro p md h
    simp [refreshProject, h]

/-- Environment in which only `/p/a` exists on disk. -/
def envRefresh : String → Option DirMetadata := fun path =>
  if path = "/p/a" then some ⟨"T9", 42⟩ else none

/-- Witness for claim C9 (amended) on `storeWf`, whose first record is
active and hence passes the default filter. -/
theorem listProjects_write_witness :
    (storeWf.projects ≠ [] ∧
      listSelection envRefresh defaultListOptions
        (storeWf.projects.map migrateProject) ≠ []) ∧
    (listProjects envRefresh (.present (some storeWf)) defaultListOptions =
        ⟨.ok, some ⟨storeWf.version,
          (storeWf.projects.map migrateProject).map (refreshProject envRefresh)⟩⟩ ∧
      (∀ q ∈ (storeWf.projects.map migrateProject).map (refreshProject envRefresh),
        q.state ≠ none) ∧
      (∀ p : Project, ∀ md : DirMetadata, envRefresh p.path = some md →
        (refreshProject envRefresh p).lastModified = md.lastModified ∧
        (refreshProject envRefresh p).size = some md.size)) :=
  ⟨⟨by decide, by decide⟩,
    listProjects_write envRefresh storeWf defaultListOptions
      (by decide) (by decide)⟩

/-! ## Directory scan (`scanDirectory`, proj.ts lines 805-872) and
explicit add (`addProject`, proj.ts lines 427-489) -/

/-- One entry of `readdirSync(scanPath, { withFileTypes: true })`. -/
structure DirEntry where
  name : String
  isDirectory : Bool
deriving DecidableEq

/-- The filesystem facts `scanDirectory` consults: the entries of the
scanned directory, the `looksLikeProject` heuristic per full path, and
`getDirectoryMetadata` (total thanks to its fallback branch). -/
structure ScanEnv where
  entries : List DirEntry
  looksLike : String → Bool
  metadata : String → DirMetadata

/-- `join(scanPath, entry.name)`. -/
def joinPath (a b : String) : String := a ++ "/" ++ b

/-- The per-entry body of the scan loop (proj.ts lines 826-855): a
directory that looks like a project is added unless some record already in
the (growing) list has exactly the same path; the comparison is on `path`,
never on `name`. -/
def scanStep (env : ScanEnv) (scanPath now : String)
    (projects : List Project) (entry : DirEntry) : List Project :=
  if entry.isDirectory then
    if env.looksLike (joinPath scanPath entry.name) then
      if projects.any (fun p => p.path = joinPath scanPath entry.name) then
        projects
      else
        projects ++
          [{ mkProject entry.name (joinPath scanPath entry.name) now
              (env.metadata (joinPath scanPath entry.name)).lastModified with
              size := some (env.metadata (joinPath scanPath entry.name)).size }]
    else projects
  else projects

/-- The entries counted by `foundCount`: directories that look like
projects. -/
def foundEntries (env : ScanEnv) (scanPath : String) : List DirEntry :=
  env.entries.filter
    (fun e => e.isDirectory && env.looksLike (joinPath scanPath e.name))

/-- `scanDirectory` (proj.ts lines 805-872). The scanned path is taken as
already resolved; `dirExists` is `existsSync(scanPath)`. When nothing
looked like a project the config is not saved. -/
def scanDirectory (env : ScanEnv) (scanPath : String) (dirExists : Bool)
    (file : ConfigFile) (now : String) : OpResult :=
  if isBlank scanPath then ⟨.fatal .usageError 1, none⟩
  else if !dirExists then ⟨.fatal .dirMissing 1, none⟩
  else
    match (loadConfig file).result with
    | none => ⟨.fatal .configCorrupt 1, none⟩
    | some config =>
        if foundEntries env scanPath = [] then ⟨.ok, none⟩
        else ⟨.ok, some { config with
          projects := env.entries.foldl (scanStep env scanPath now)
            config.projects }⟩

/-- The optional docs path validation of `addProject` (proj.ts lines
447-455): when a docs path was given it must exist. -/
def docsOk (pathExists : String → Bool) : Option String → Bool
  | some d => pathExists d
  | none => true

/-- `addProject` (proj.ts lines 427-489). Paths are taken as already
resolved (`resolve` is the identity on the absolute paths used here);
`pathExists` is `existsSync`. A record whose `name` equals the requested
name makes the command fail before any save. -/
def addProject (pathExists : String → Bool)
    (metadata : String → DirMetadata) (file : ConfigFile)
    (name pathArg : String) (docsPath : Option String) (now : String) :
    OpResult :=
  if isBlank name then ⟨.fatal .usageError 1, none⟩
  else if isBlank pathArg then ⟨.fatal .usageError 1, none⟩
  else if !pathExists pathArg then ⟨.fatal .dirMissing 1, none⟩
  else if !docsOk pathExists docsPath then ⟨.fatal .dirMissing 1, none⟩
  else
    match (loadConfig file).result with
    | none => ⟨.fatal .configCorrupt 1, none⟩
    | some config =>
        if config.projects.any (fun p => p.name = name) then
          ⟨.fatal .projectExists 1, none⟩
        else
          ⟨.ok, some { config with
            projects := config.projects ++
              [{ mkProject name pathArg now (metadata pathArg).lastModified with
                  size := some (metadata pathArg).size
                  docs := docsPath }] }⟩

/-- The existing record named `foo` at `/a/foo`. -/
def fooA : Project :=
  { mkProject "foo" "/a/foo" "T1" "T2" with state := some "active" }

/-- The record the scan of `/b` registers: same name, different path. -/
def fooB : Project :=
  { mkProject "foo" "/b/foo" "N" "M" with size := some 7 }

/-- A store already tracking `foo` at `/a/foo`. -/
def storeFoo : ProjectConfig := ⟨"1.0.0", [fooA]⟩

/-- Scan environment for `/b`, which contains a project directory also
named `foo`. -/
def envDup : ScanEnv := ⟨[⟨"foo", true⟩], fun _ => true, fun _ => ⟨"M", 7⟩⟩

/-- Claim C10: the scan deduplicates by path, not by name — an entry that
is a directory and looks like a project is skipped exactly when some
existing record has the same full path (conjuncts 1-2); consequently a
scan can register a second record whose name equals an existing record's
name at a different path (conjuncts 3-5, at the concrete `storeFoo`);
whereas the explicit add operation rejects a duplicate name and leaves the
store unchanged (final conjunct). -/
theorem scan_dedup_by_path (env : ScanEnv) (scanPath now : String)
    (projects : List Project) (entry : DirEntry)
    (hdir : entry.isDirectory = true)
    (hlook : env.looksLike (joinPath scanPath entry.name) = true) :
    (projects.any (fun p => p.path = joinPath scanPath entry.name) = true →
      scanStep env scanPath now projects entry = projects) ∧
    (projects.any (fun p => p.path = joinPath scanPath entry.name) = false →
      scanStep env scanPath now projects entry =
        projects ++
          [{ mkProject entry.name (joinPath scanPath entry.name) now
              (env.metadata (joinPath scanPath entry.name)).lastModified with
              size := some (env.metadata (joinPath scanPath entry.name)).size }]) ∧
    (scanDirectory envDup "/b" true (.present (some storeFoo)) "N" =
      ⟨.ok, some ⟨"1.0.0", [fooA, fooB]⟩⟩) ∧
    fooA.name = fooB.name ∧
    fooA.path ≠ fooB.path ∧
    (∀ (pathExists : String → Bool) (metadata : String → DirMetadata)
        (cfg : ProjectConfig) (n pa : String) (dp : Option String),
      isBlank n = false → isBlank pa = false → pathExists pa = true →
      (∀ d, dp = some d → pathExists d = true) →
      (∃ p ∈ cfg.projects, p.name = n) →
      addProject pathExists metadata (.present (some cfg)) n pa dp now =
        ⟨.fatal .projectExists 1, none⟩) := by
  refine ⟨?_, ?_, by decide, by decide, by decide, ?_⟩
  · intro h
    simp [scanStep, hdir, hlook, h]
  · intro h
    simp [scanStep, hdir, hlook, h]
  · intro pathExists metadata cfg n pa dp hn hpa hpe hdp hex
    obtain ⟨p, hp, hpn⟩ := hex
    have hany : (cfg.projects.map migrateProject).any
        (fun q => q.name = n) = true := by
      simp only [List.any_eq_true, decide_eq_true_eq]
      exact ⟨migrateProject p, List.mem_map_of_mem _ hp, by
        simpa [migrateProject_name] using hpn⟩
    have hdocs : docsOk pathExists dp = true := by
      cases dp with
      | none => rfl
      | some d => exact hdp d rfl
    simp [addProject, hn, hpa, hpe, hdocs, loadConfig, hany]

/-- Witness for claim C10 at the concrete scan environment `envDup`:
the entry `foo` of `/b` is a project directory, no record yet has the path
`/b/foo`, and the scan step appends the new record. -/
theorem scan_dedup_by_path_witness :
    ((⟨"foo", true⟩ : DirEntry).isDirectory = true ∧
      envDup.looksLike (joinPath "/b" "foo") = true) ∧
    scanStep envDup "/b" "N" [fooA] ⟨"foo", true⟩ = [fooA, fooB] :=
  ⟨⟨rfl, rfl⟩, by
    have h := (scan_dedup_by_path envDup "/b" "N" [fooA] ⟨"foo", true⟩
      rfl rfl).2.1 (by decide)
    simpa using h⟩

/-! ## MCP protocol adapter (`mcp-server.ts`) -/

/-- `updateProjectTimestamp` (mcp-server.ts lines 109-116): refresh
`lastModified` to the current time and `size` from `getDirectorySize`. -/
def updateProjectTimestamp (sizeOf : String → Nat) (now : String)
    (p : Project) : Project :=
  { p with lastModified := now, size := some (sizeOf p.path) }

/-- The record update the `update_project_state` handler performs
(mcp-server.ts lines 337-341): set the state; stamp `completedAt` when the
target is `completed` and otherwise keep the record's existing value
(there is no clearing branch); then refresh timestamp and size. -/
def mcpApplyState (sizeOf : String → Nat) (now : String) (p : Project)
    (newState : PState) : Project :=
  updateProjectTimestamp sizeOf now
    { p with
        state := some newState.toStr
        completedAt :=
          if newState = .completed then some now else p.completedAt }

/-- The `clearCompletedDate` flag the CLI passes for each target state
(proj.ts lines 1217-1251): pause and reactivate clear, complete and
archive do not. -/
def cliClearFlag : PState → Bool
  | .paused => true
  | .active => true
  | .completed => false
  | .archived => false

/-- The adapter's `loadConfig` (mcp-server.ts lines 63-89): identical
parsing and migration, but a parse failure throws to the caller instead of
exiting — the request handler catches it and replies with an error
result. -/
def mcpLoadConfig : ConfigFile → Option ProjectConfig
  | .absent => some defaultConfig
  | .present none => none
  | .present (some cfg) => some ⟨cfg.version, cfg.projects.map migrateProject⟩

/-- An MCP tool-call reply: whether `isError` was set, plus the document
handed to `saveConfig` (if any). -/
structure McpResult where
  isError : Bool
  write : Option ProjectConfig
deriving DecidableEq

/-- The `update_project_state` handler (mcp-server.ts lines 320-353):
look the record up by name (`findIndex` — first match), replace it in
place with `mcpApplyState`, save, and answer; a missing record answers
with `isError` and saves nothing; a corrupt store is caught by the
handler's `try` and also answers with `isError`. -/
def mcpUpdateProjectState (sizeOf : String → Nat) (file : ConfigFile)
    (name : String) (newState : PState) (now : String) : McpResult :=
  match mcpLoadConfig file with
  | none => ⟨true, none⟩
  | some config =>
      match updateFirst (fun p => mcpApplyState sizeOf now p newState)
          name config.projects with
      | none => ⟨true, none⟩
      | some projects => ⟨false, some { config with projects := projects }⟩

/-- A store holding only the completed, dated record `projDone`. -/
def storeDone : ProjectConfig := ⟨"1.0.0", [projDone]⟩

/-- Counterexample to claim C8: pausing the completed record `b` (which
carries `completedAt = "T3"`) through the MCP adapter keeps the completion
date, while the CLI `pause` command removes it — the adapter's update-state
call is not 1:1 with the lifecycle operation on the `completedAt` field. -/
theorem mcp_update_state_counterexample :
    (mcpApplyState (fun _ => 0) "NOW" projDone .paused).completedAt =
      some "T3" ∧
    (applyState projDone .paused (cliClearFlag .paused) "NOW").completedAt =
      none ∧
    (mcpApplyState (fun _ => 0) "NOW" projDone .paused).completedAt ≠
      (applyState projDone .paused (cliClearFlag .paused) "NOW").completedAt ∧
    ((mcpUpdateProjectState (fun _ => 0) (.present (some storeDone)) "b"
        .paused "NOW").write).map
        (fun c => c.projects.map (fun p => p.completedAt)) =
      some [some "T3"] ∧
    ((pauseCmd (.present (some storeDone)) "b" "NOW").write).map
        (fun c => c.projects.map (fun p => p.completedAt)) =
      some [none] := by decide

/-- Claim C8 (amended): the adapter's update-state call sets the record's
state and, when the target is `completed`, a fresh `completedAt`; for every
other target it preserves an existing `completedAt` instead of clearing
it, and it always refreshes `lastModified` and `size` (which the CLI state
commands never touch). Its `completedAt` result agrees with the CLI
lifecycle operation for the same target exactly when the target is
`completed` or `archived` or the record carries no `completedAt`; on
pause/reactivate of a completion-dated record the two entry points
diverge. -/
theorem mcp_update_state_amended (sizeOf : String → Nat) (now : String)
    (r : Project) (s : PState) :
    (mcpApplyState sizeOf now r s).state = some s.toStr ∧
    (mcpApplyState sizeOf now r s).completedAt =
      (if s = .completed then some now else r.completedAt) ∧
    (mcpApplyState sizeOf now r s).lastModified = now ∧
    (mcpApplyState sizeOf now r s).size = some (sizeOf r.path) ∧
    ((mcpApplyState sizeOf now r s).completedAt =
        (applyState r s (cliClearFlag s) now).completedAt ↔
      (s = .completed ∨ s = .archived ∨ r.completedAt = none)) := by
  refine ⟨rfl, rfl, rfl, rfl, ?_⟩
  cases s <;>
    simp [mcpApplyState, updateProjectTimestamp, applyState, cliClearFlag]

/-! ## Variable substitution (spec §4.3)

The implementation of `substituteVariables` is not among the sources (only
`tests/unit/templates.test.ts` imports and exercises it), so the function
is modelled from the spec, with the `\x7b\x7bkey\x7d\x7d` double-brace
token syntax that the unit tests exercise. -/

/-- The `\x7b` character. -/
def lbrace : Char := Char.ofNat 123

/-- The `\x7d` character. -/
def rbrace : Char := Char.ofNat 125

/-- A key is "present (defined)" in the variables mapping when it maps to
an actual string; an absent key and a key mapped to `undefined` both count
as not substitutable. -/
def lookupVar (vars : List (String × Option String)) (k : String) :
    Option String :=
  match vars.lookup k with
  | some (some v) => some v
  | _ => none

/-- Read a token key after an opening double brace: the characters up to
the first closing double brace. Fails on a stray single closing brace, on
a nested opening brace and at end of input. Returns the key and the text
after the token. -/
def takeKey : List Char → Option (List Char × List Char)
  | [] => none
  | c :: rest =>
      if c = rbrace then
        match rest with
        | r2 :: rest2 => if r2 = rbrace then some ([], rest2) else none
        | [] => none
      else if c = lbrace then none
      else
        match takeKey rest with
        | some (k, rem) => some (c :: k, rem)
        | none => none

/-- The two brace characters differ. -/
theorem lbrace_ne_rbrace : lbrace ≠ rbrace := by decide

/-- A successful `takeKey` consumes at least the closing braces. -/
theorem takeKey_length :
    ∀ (l k rem : List Char), takeKey l = some (k, rem) →
      rem.length < l.length := by
  intro l
  induction l with
  | nil => intro k rem h; simp [takeKey] at h
  | cons c rest ih =>
      intro k rem h
      by_cases hc : c = rbrace
      · cases rest with
        | nil => simp [takeKey, hc] at h
        | cons r2 rest2 =>
            by_cases hr : r2 = rbrace
            · simp [takeKey, hc, hr] at h
              obtain ⟨_, hrem⟩ := h
              subst hrem
              simp [List.length_cons]
              omega
            · simp [takeKey, hc, hr] at h
      · by_cases hl : c = lbrace
        · simp [takeKey, hc, hl, lbrace_ne_rbrace] at h
        · cases htk : takeKey rest with
          | none => simp [takeKey, hc, hl, htk] at h
          | some pr =>
              obtain ⟨k2, rem2⟩ := pr
              simp [takeKey, hc, hl, htk] at h
              obtain ⟨_, hrem⟩ := h
              subst hrem
              exact Nat.lt_succ_of_lt (ih k2 rem2 htk)

set_option linter.unusedVariables false in
/-- Modelled from the spec: the scanning core of `substituteVariables`
(spec §4.3). The text is scanned left to right; at a double opening brace
a token is read; a token whose key is present and defined in the mapping
is replaced by the value, and scanning continues after the token (the
inserted value is never rescanned — replacement is literal); a token whose
key is absent or undefined is emitted verbatim; anything that does not
form a token is copied unchanged. -/
def substCore (vars : List (String × Option String)) :
    List Char → List Char
  | [] => []
  | [c] => [c]
  | c1 :: c2 :: rest =>
      if c1 = lbrace ∧ c2 = lbrace then
        match htk : takeKey rest with
        | some (k, rem) =>
            (match lookupVar vars (String.mk k) with
             | some v => v.data ++ substCore vars rem
             | none =>
                lbrace :: lbrace :: (k ++ rbrace :: rbrace :: substCore vars rem))
        | none => c1 :: substCore vars (c2 :: rest)
      else c1 :: substCore vars (c2 :: rest)
termination_by l => l.length
decreasing_by
  all_goals first
    | (have hlt := takeKey_length rest k rem htk
       simp only [List.length_cons]
       omega)
    | (simp only [List.length_cons]
       omega)

/-- Modelled from the spec: `substituteVariables(text, variables)`
(spec §4.3), the pure templating function used by the scaffolder. -/
def substituteVariables (text : String)
    (vars : List (String × Option String)) : String :=
  String.mk (substCore vars text.data)

/-- The scanner leaves the empty text empty. -/
theorem substCore_nil (vars : List (String × Option String)) :
    substCore vars [] = [] := by simp [substCore]

/-- The scanner copies a single character. -/
theorem substCore_one (vars : List (String × Option String)) (c : Char) :
    substCore vars [c] = [c] := by simp [substCore]

/-- A character other than an opening brace is copied and scanning
continues. -/
theorem substCore_cons_ne (vars : List (String × Option String))
    (c1 c2 : Char) (rest : List Char) (h : c1 ≠ lbrace) :
    substCore vars (c1 :: c2 :: rest) = c1 :: substCore vars (c2 :: rest) := by
  rw [substCore]
  simp [h]

/-- `takeKey` reads exactly a brace-free key up to the closing double
brace. -/
theorem takeKey_complete (k rest : List Char)
    (hk : ∀ c ∈ k, c ≠ lbrace ∧ c ≠ rbrace) :
    takeKey (k ++ rbrace :: rbrace :: rest) = some (k, rest) := by
  induction k with
  | nil => simp [takeKey]
  | cons c k2 ih =>
      have hc := hk c (List.mem_cons_self c k2)
      have ih2 := ih (fun d hd => hk d (List.mem_cons_of_mem c hd))
      simp only [List.cons_append, takeKey, List.append_eq, if_neg hc.2,
        if_neg hc.1, ih2]

/-- At a well-formed token the scanner substitutes a defined key and
copies an unresolvable token verbatim, continuing after the token in both
cases. -/
theorem substCore_token (vars : List (String × Option String))
    (k rest : List Char) (hk : ∀ c ∈ k, c ≠ lbrace ∧ c ≠ rbrace) :
    substCore vars (lbrace :: lbrace :: (k ++ rbrace :: rbrace :: rest)) =
      match lookupVar vars (String.mk k) with
      | some v => v.data ++ substCore vars rest
      | none =>
          lbrace :: lbrace :: (k ++ rbrace :: rbrace :: substCore vars rest) := by
  have hcomplete := takeKey_complete k rest hk
  rw [substCore, if_pos (And.intro rfl rfl)]
  split
  · rename_i k1 rem htk
    rw [hcomplete] at htk
    injection htk with h2
    obtain ⟨rfl, rfl⟩ := Prod.mk.injEq .. ▸ h2
    rfl
  · rename_i htk
    rw [hcomplete] at htk
    exact absurd htk (by simp)

/-- `(String.mk l).data = l`. -/
theorem data_mk (l : List Char) : (String.mk l).data = l := rfl

/-- `String.mk s.data = s`. -/
theorem mk_data (s : String) : String.mk s.data = s := rfl

/-- The scanner copies a brace-free prefix verbatim. -/
theorem substCore_lit (vars : List (String × Option String))
    (l rest : List Char) (h : ∀ c ∈ l, c ≠ lbrace) :
    substCore vars (l ++ rest) = l ++ substCore vars rest := by
  induction l with
  | nil => simp
  | cons c l2 ih =>
      have hc := h c (List.mem_cons_self c l2)
      have ih2 := ih (fun d hd => h d (List.mem_cons_of_mem c hd))
      cases hl : l2 ++ rest with
      | nil =>
          obtain ⟨hl2, hrest⟩ := List.append_eq_nil.mp hl
          subst hl2; subst hrest
          simp [substCore]
      | cons d t =>
          rw [List.cons_append, hl, substCore_cons_ne vars c d t hc, ← hl,
            ih2, List.cons_append]

/-- A piece of template text, as the spec describes it: literal text
interleaved with `\x7b\x7bkey\x7d\x7d` tokens. -/
inductive Segment
  | lit (s : String)
  | tok (k : String)

/-- The characters a segment renders to in the input text. -/
def segChars : Segment → List Char
  | .lit s => s.data
  | .tok k => lbrace :: lbrace :: (k.data ++ [rbrace, rbrace])

/-- The characters a segment must produce in the output: literals and
unresolvable tokens verbatim, resolvable tokens replaced by their value
(whatever characters the value contains). -/
def substSegChars (vars : List (String × Option String)) :
    Segment → List Char
  | .lit s => s.data
  | .tok k =>
      match lookupVar vars k with
      | some v => v.data
      | none => lbrace :: lbrace :: (k.data ++ [rbrace, rbrace])

/-- A segment that cannot collide with token syntax: literals contain no
opening brace, keys contain no braces. -/
def goodSeg : Segment → Prop
  | .lit s => ∀ c ∈ s.data, c ≠ lbrace
  | .tok k => ∀ c ∈ k.data, c ≠ lbrace ∧ c ≠ rbrace

instance (seg : Segment) : Decidable (goodSeg seg) := by
  cases seg <;> (unfold goodSeg; infer_instance)

/-- The input text a list of segments renders to. -/
def renderSegs (segs : List Segment) : String :=
  String.mk ((segs.map segChars).flatten)

/-- The output text the spec prescribes for a list of segments. -/
def substSegs (vars : List (String × Option String))
    (segs : List Segment) : String :=
  String.mk ((segs.map (substSegChars vars)).flatten)

/-- The scanner processes a segment list segment by segment. -/
theorem substCore_segs (vars : List (String × Option String))
    (segs : List Segment) (h : ∀ seg ∈ segs, goodSeg seg) :
    substCore vars ((segs.map segChars).flatten) =
      (segs.map (substSegChars vars)).flatten := by
  induction segs with
  | nil => simp [substCore]
  | cons seg rest ih =>
      have hseg := h seg (List.mem_cons_self seg rest)
      have ih2 := ih (fun s hs => h s (List.mem_cons_of_mem seg hs))
      cases seg with
      | lit s =>
          simp only [List.map_cons, List.flatten_cons, segChars, substSegChars]
          rw [substCore_lit vars s.data _ hseg, ih2]
      | tok k =>
          simp only [List.map_cons, List.flatten_cons, segChars, substSegChars,
            List.cons_append, List.append_assoc, List.singleton_append]
          rw [substCore_token vars k.data _ hseg, mk_data]
          cases hv : lookupVar vars k with
          | some v => simp [hv, ih2]
          | none => simp [hv, ih2]

/-- Claim C5: the substitution function is pure (a mathematical function
of its two arguments); on any text decomposed into brace-free literals and
tokens, every token whose key is present and defined in the mapping is
replaced at all of its occurrences with the corresponding value, tokens
whose key is absent or whose value is undefined are left verbatim with no
error, and replacement is literal — the inserted value (which may itself
contain token-shaped text) is emitted as is and never re-substituted. -/
theorem substituteVariables_spec (vars : List (String × Option String))
    (segs : List Segment) (h : ∀ seg ∈ segs, goodSeg seg) :
    substituteVariables (renderSegs segs) vars = substSegs vars segs := by
  unfold substituteVariables renderSegs substSegs
  rw [data_mk]
  exact congrArg String.mk (substCore_segs vars segs h)

/-- Template text with a repeated token, an unknown key, an undefined key
and a key whose value is itself token-shaped. -/
def segsDemo : List Segment :=
  [.lit "Hello ", .tok "name", .lit "! ", .tok "name", .tok "missing",
   .tok "undef", .tok "loop"]

/-- Variables for `segsDemo`: `undef` is present but undefined; `loop`
maps to text that looks like a defined token. -/
def varsDemo : List (String × Option String) :=
  [("name", some "world"), ("undef", none),
   ("loop", some "\x7b\x7bname\x7d\x7d")]

/-- Witness for claim C5: both `name` occurrences are replaced, `missing`
and `undef` stay verbatim, and the inserted value of `loop` is not
re-substituted even though it spells a defined token. -/
theorem substituteVariables_spec_witness :
    (∀ seg ∈ segsDemo, goodSeg seg) ∧
    substituteVariables (renderSegs segsDemo) varsDemo =
      substSegs varsDemo segsDemo ∧
    renderSegs segsDemo =
      "Hello \x7b\x7bname\x7d\x7d! \x7b\x7bname\x7d\x7d\x7b\x7bmissing\x7d\x7d\x7b\x7bundef\x7d\x7d\x7b\x7bloop\x7d\x7d" ∧
    substSegs varsDemo segsDemo =
      "Hello world! world\x7b\x7bmissing\x7d\x7d\x7b\x7bundef\x7d\x7d\x7b\x7bname\x7d\x7d" :=
  ⟨by decide, substituteVariables_spec varsDemo segsDemo (by decide),
    by decide, by decide⟩

/-! ## Project scaffolder (spec §4.5)

The `create` command's implementation is not among the sources (only
`tests/integration/create-command.test.ts` exercises it), so the
scaffolding operation is modelled from the spec's nine steps, over an
explicit filesystem state. -/

/-- Template metadata (`Template` interface in `proj.ts`, spec §3). -/
structure Template where
  name : String
  description : String
  docsLocation : Option String
  gitInit : Option Bool
  nextSteps : Option (List String)
deriving DecidableEq

/-- One registered template: its filesystem-derived id, its parsed
definition and its file tree (relative path and content per file). -/
structure TemplateEntry where
  id : String
  tdef : Template
  files : List (String × String)
deriving DecidableEq

/-- `load(id)` against an in-memory registry (spec §4.4); the three
template-loading failures are collapsed into lookup failure here, which is
all the scaffolder's first step observes. -/
def lookupTemplate (reg : List TemplateEntry) (tid : String) :
    Option TemplateEntry :=
  reg.find? (fun t => t.id = tid)

/-- Filesystem state: existing directories, existing files with contents,
and locations where directory creation fails. -/
structure FsState where
  dirs : List String
  files : List (String × String)
  unwritable : List String
deriving DecidableEq

/-- `existsSync`: a path exists when it is a directory or a file. -/
def pathExistsFs (fs : FsState) (p : String) : Bool :=
  fs.dirs.contains p || fs.files.any (fun f => f.1 = p)

/-- The state the scaffolder threads: the filesystem and the persisted
config file. -/
structure ScaffoldState where
  fs : FsState
  configFile : ConfigFile
deriving DecidableEq

/-- Modelled from the spec: the binary-extension denylist of step 5
(images, archives, fonts, executables, shared libraries). -/
def binaryExtensions : List String :=
  [".png", ".jpg", ".jpeg", ".gif", ".ico", ".zip", ".tar", ".gz",
   ".woff", ".woff2", ".ttf", ".eot", ".exe", ".dll", ".so", ".dylib"]

/-- Character-level suffix test (kernel-computable `endsWith`). -/
def strEndsWith (s suffix : String) : Bool :=
  suffix.data.isSuffixOf s.data

/-- A file is classified binary by its extension against the denylist. -/
def isBinaryFile (name : String) : Bool :=
  binaryExtensions.any (fun ext => strEndsWith name ext)

/-- The standard variable set of the scaffolder (spec §4.3):
`name`, `location`, `docs`, `date`. -/
def scaffoldVars (projName destPath docs today : String) :
    List (String × Option String) :=
  [("name", some projName), ("location", some destPath),
   ("docs", some docs), ("date", some today)]

/-- Modelled from the spec (step 2): expand a leading relative marker
against the destination path and a leading home marker against the home
directory. -/
def expandDocs (home destPath : String) (s : String) : String :=
  if ("./".data).isPrefixOf s.data then
    destPath ++ "/" ++ String.mk (s.data.drop 2)
  else if ("~/".data).isPrefixOf s.data then
    home ++ "/" ++ String.mk (s.data.drop 2)
  else s

/-- Modelled from the spec: the scaffolding operation, steps 1-9 of
spec §4.5, halting with the reported error at the first failure and
leaving any partially-created state behind (no rollback). Returns the
resulting state plus the error, if any. -/
def createProject (reg : List TemplateEntry) (st : ScaffoldState)
    (templateId projName destPath : String) (docsOverride : Option String)
    (gitFlag : Option Bool) (home today now : String)
    (sizeOf : String → Nat) : ScaffoldState × Option ProjError :=
  match lookupTemplate reg templateId with
  | none => (st, some .templateNotFound)
  | some entry =>
      if isBlank projName then (st, some .usageError)
      else if pathExistsFs st.fs destPath then (st, some .destinationExists)
      else
        let docs : Option String :=
          match docsOverride with
          | some d => some d
          | none =>
              entry.tdef.docsLocation.map (fun pat =>
                expandDocs home destPath (substituteVariables pat
                  [("name", some projName), ("location", some destPath),
                   ("date", some today)]))
        let git : Bool :=
          match gitFlag with
          | some b => b
          | none =>
              match entry.tdef.gitInit with
              | some b => b
              | none => true
        if st.fs.unwritable.contains destPath then
          (st, some .directoryCreateError)
        else
          let docsStr := match docs with
            | some d => d
            | none => ""
          let fs1 := { st.fs with dirs := st.fs.dirs ++ [destPath] }
          let newFiles := entry.files.map (fun f =>
            (joinPath destPath f.1,
              if isBinaryFile f.1 then f.2
              else substituteVariables f.2
                (scaffoldVars projName destPath docsStr today)))
          let fs2 := { fs1 with files := fs1.files ++ newFiles }
          let fs3 := match docs with
            | some d =>
                if pathExistsFs fs2 d || fs2.unwritable.contains d then fs2
                else { fs2 with dirs := fs2.dirs ++ [d] }
            | none => fs2
          let fs4 :=
            if git && !fs3.unwritable.contains (joinPath destPath ".git") then
              { fs3 with dirs := fs3.dirs ++ [joinPath destPath ".git"] }
            else fs3
          match (loadConfig st.configFile).result with
          | none => (⟨fs4, st.configFile⟩, some .configCorrupt)
          | some config =>
              let record := { mkProject projName destPath now now with
                  size := some (sizeOf destPath)
                  state := some "active"
                  docs := docs
                  nextSteps := entry.tdef.nextSteps.map
                    (fun steps => String.intercalate "; " steps) }
              (⟨fs4, .present (some { config with
                  projects := config.projects ++ [record] })⟩, none)

/-- Claim C6: when the template loads and the project name is non-blank
but the destination path already exists, scaffolding fails with
`DestinationExists` and performs no writes beyond the precondition check —
the returned state is exactly the input state: no destination directory
created, no template files copied, no record registered in the config
store. -/
theorem createProject_destinationExists (reg : List TemplateEntry)
    (st : ScaffoldState) (templateId projName destPath : String)
    (docsOverride : Option String) (gitFlag : Option Bool)
    (home today now : String) (sizeOf : String → Nat)
    (hTemplate : (lookupTemplate reg templateId).isSome = true)
    (hName : isBlank projName = false)
    (hDest : pathExistsFs st.fs destPath = true) :
    createProject reg st templateId projName destPath docsOverride gitFlag
      home today now sizeOf = (st, some .destinationExists) := by
  obtain ⟨entry, hentry⟩ := Option.isSome_iff_exists.mp hTemplate
  simp [createProject, hentry, hName, hDest]

/-- The template the integration tests set up. -/
def tplBasic : TemplateEntry :=
  ⟨"basic",
   ⟨"Basic Template", "A basic project template", some "./docs",
    some true, some ["Install dependencies", "Start coding"]⟩,
   [("README.md", "# \x7b\x7bname\x7d\x7d")]⟩

/-- A filesystem on which the destination `/home/u/projects/my-app`
already exists. -/
def stDemo : ScaffoldState :=
  ⟨⟨["/home/u/projects/my-app"], [], []⟩, .present (some storeWf)⟩

/-- Witness for claim C6: creating `my-app` over the existing destination
directory fails with `DestinationExists` and changes nothing. -/
theorem createProject_destinationExists_witness :
    ((lookupTemplate [tplBasic] "basic").isSome = true ∧
      isBlank "my-app" = false ∧
      pathExistsFs stDemo.fs "/home/u/projects/my-app" = true) ∧
    createProject [tplBasic] stDemo "basic" "my-app"
        "/home/u/projects/my-app" none (some false) "/home/u"
        "2026-01-19" "NOW" (fun _ => 0) =
      (stDemo, some .destinationExists) :=
  ⟨⟨by decide, by decide, by decide⟩,
    createProject_destinationExists [tplBasic] stDemo "basic" "my-app"
      "/home/u/projects/my-app" none (some false) "/home/u"
      "2026-01-19" "NOW" (fun _ => 0) (by decide) (by decide) (by decide)⟩

end Proj
